import Mathlib

/-!
# Verification of the path system of the `threejs-testing` repository

This file gives a shallow embedding, over exact rational arithmetic, of the
path capture / curve / playback pipeline of the repository:

* the Path Store (`readAllSaved` / `writeAllSaved` / `getSavedPath` /
  `deleteSavedPath` and the record write at the end of
  `stopCreatePathRecording`), from `createPath.js`;
* the Path Recorder (`stopCreatePathRecording`, `updateCreatePath`), from
  `createPath.js`;
* the Curve Builder (`createSmoothCurve`, `resampleCurve`), from
  `src/utils/math3d.js`, together with the relevant parts of the external
  `three.js` curve machinery those one-line wrappers delegate to
  (`CatmullRomCurve3.getPoint`, `Curve.getTangent`, `Curve.getLengths`,
  `Curve.getUtoTmapping`, `Curve.getPointAt`, `Curve.getSpacedPoints`);
* the Agent Path Player (`updateCarAI`), from `src/carAI.js`.

Modelling conventions:

* JavaScript numbers are modelled as exact rationals `ℚ`.  The two
  irrational library operations the modelled code paths reach —
  `Math.sqrt` (inside `Vector3.length` / `Vector3.distanceTo`) and the
  quaternion produced by `Object3D.lookAt` — are not rational-valued, so
  they are supplied as parameters collected in a `Geom` structure; all
  theorems below hold for every choice of these two functions, and
  concrete witnesses instantiate them with an explicit stand-in.
* `localStorage` is a single slot holding the serialized collection; the
  slot is modelled as `Option` of the deserialized collection itself
  (`JSON.stringify` / `JSON.parse` round-trip on the plain records at hand,
  with the absent-slot case giving the empty collection, as in
  `readAllSaved`).  A JavaScript object used as a string-keyed map is
  modelled as an association list: `obj[k]` is lookup of the first entry,
  `obj[k] = v` replaces the first entry in place or appends, `delete obj[k]`
  removes the entries with that key.
* Scene objects are modelled at their interface: a hosting line contributes
  its current `matrixWorld` and world quaternion; the recorder's overlay
  contributes its `position` / `rotation` / `scale`; cars carry a position
  and a quaternion; physics bodies carry position, quaternion, velocity and
  angular velocity.
-/

/-- A 3-component vector, as `THREE.Vector3` (coordinates as exact rationals). -/
structure Vec3 where
  x : ℚ
  y : ℚ
  z : ℚ
deriving DecidableEq, Repr

/-- A quaternion, as `THREE.Quaternion`. -/
structure Quat where
  qx : ℚ
  qy : ℚ
  qz : ℚ
  qw : ℚ
deriving DecidableEq, Repr

/-- The zero vector (`new THREE.Vector3()`). -/
def Vec3.zero : Vec3 := ⟨0, 0, 0⟩

/-- `a.add(b)` of `THREE.Vector3`. -/
def Vec3.add (a b : Vec3) : Vec3 := ⟨a.x + b.x, a.y + b.y, a.z + b.z⟩

/-- `a.sub(b)` of `THREE.Vector3`. -/
def Vec3.sub (a b : Vec3) : Vec3 := ⟨a.x - b.x, a.y - b.y, a.z - b.z⟩

/-- `a.distanceToSquared(b)` of `THREE.Vector3` (no square root involved). -/
def Vec3.distanceToSquared (a b : Vec3) : ℚ :=
  (a.x - b.x) * (a.x - b.x) + (a.y - b.y) * (a.y - b.y) + (a.z - b.z) * (a.z - b.z)

/-- `v.applyQuaternion(q)` of `THREE.Vector3`:
`t = 2 * cross(q.xyz, v)`, result `v + q.w * t + cross(q.xyz, t)`. -/
def Vec3.applyQuaternion (v : Vec3) (q : Quat) : Vec3 :=
  let tx := 2 * (q.qy * v.z - q.qz * v.y)
  let ty := 2 * (q.qz * v.x - q.qx * v.z)
  let tz := 2 * (q.qx * v.y - q.qy * v.x)
  ⟨v.x + q.qw * tx + q.qy * tz - q.qz * ty,
   v.y + q.qw * ty + q.qz * tx - q.qx * tz,
   v.z + q.qw * tz + q.qx * ty - q.qy * tx⟩

/-- A 4×4 matrix (row-major field names; `THREE.Matrix4` stores the same
entries in a column-major flat array). -/
structure Mat4 where
  m11 : ℚ
  m12 : ℚ
  m13 : ℚ
  m14 : ℚ
  m21 : ℚ
  m22 : ℚ
  m23 : ℚ
  m24 : ℚ
  m31 : ℚ
  m32 : ℚ
  m33 : ℚ
  m34 : ℚ
  m41 : ℚ
  m42 : ℚ
  m43 : ℚ
  m44 : ℚ
deriving DecidableEq, Repr

/-- The identity matrix (`new THREE.Matrix4()` / `.identity()`). -/
def Mat4.identity : Mat4 :=
  ⟨1, 0, 0, 0, 0, 1, 0, 0, 0, 0, 1, 0, 0, 0, 0, 1⟩

/-- `v.applyMatrix4(m)` of `THREE.Vector3`, including the perspective divide
by the fourth component (division by zero yields `0` in `ℚ`, a case no
modelled call site reaches since scene matrices are affine). -/
def Vec3.applyMatrix4 (v : Vec3) (m : Mat4) : Vec3 :=
  let w := m.m41 * v.x + m.m42 * v.y + m.m43 * v.z + m.m44
  let iw := 1 / w
  ⟨(m.m11 * v.x + m.m12 * v.y + m.m13 * v.z + m.m14) * iw,
   (m.m21 * v.x + m.m22 * v.y + m.m23 * v.z + m.m24) * iw,
   (m.m31 * v.x + m.m32 * v.y + m.m33 * v.z + m.m34) * iw⟩

/-- The two irrational operations of the rendering library that the modelled
code reaches, supplied as parameters: `Math.sqrt` (used by
`Vector3.length` / `distanceTo`) and the quaternion that
`Object3D.lookAt eye target` assigns (with the object's default up vector).
Every theorem below holds for every choice of these functions. -/
structure Geom where
  sqrt : ℚ → ℚ
  lookAtQuat : Vec3 → Vec3 → Quat

/-- A concrete `Geom` instantiation used by the closed witness statements
(the identity as the square-root stand-in, a constant orientation). -/
def testGeom : Geom :=
  { sqrt := fun q => q, lookAtQuat := fun _ _ => ⟨0, 0, 0, 1⟩ }

/-- `v.length()` of `THREE.Vector3`: the square root of the squared norm. -/
def Vec3.len (g : Geom) (v : Vec3) : ℚ :=
  g.sqrt (v.x * v.x + v.y * v.y + v.z * v.z)

/-- `v.normalize()` of `THREE.Vector3`: `divideScalar(length() || 1)`. -/
def Vec3.normalize (g : Geom) (v : Vec3) : Vec3 :=
  let l := v.len g
  let d := if l = 0 then 1 else l
  ⟨v.x / d, v.y / d, v.z / d⟩

/-- `a.distanceTo(b)` of `THREE.Vector3`. -/
def Vec3.distanceTo (g : Geom) (a b : Vec3) : ℚ :=
  g.sqrt (a.distanceToSquared b)

/-! ## Path Store (`createPath.js`)

The persisted collection maps names to records; `localStorage` holds one
serialized copy of the whole collection under a single key. -/

/-- The `transform` field of a saved record. -/
structure PathTransform where
  position : Vec3
  rotation : Vec3
  scale : Vec3
deriving DecidableEq, Repr

/-- The `params` field of a saved record (`speed` plus an optional freeform
kinematic snapshot, opaque to the store). -/
structure PathParams where
  speed : ℚ
  kinematic : Option String
deriving DecidableEq, Repr

/-- A persisted path record, in the on-disk shape: points are stored in the
array-of-arrays encoding `[[x, y, z], ...]`. -/
structure PathRecord where
  name : String
  createdAt : ℚ
  transform : PathTransform
  params : PathParams
  racePathPoints : List (ℚ × ℚ × ℚ)
deriving DecidableEq, Repr

/-- `obj[k]` on a JavaScript object modelled as an association list. -/
def objGet {α : Type} (k : String) : List (String × α) → Option α
  | [] => none
  | (k', v) :: t => if k' = k then some v else objGet k t

/-- `obj[k] = v` on a JavaScript object: replace the first entry in place,
or append when absent. -/
def objSet {α : Type} (k : String) (v : α) : List (String × α) → List (String × α)
  | [] => [(k, v)]
  | (k', v') :: t => if k' = k then (k, v) :: t else (k', v') :: objSet k v t

/-- `delete obj[k]` on a JavaScript object. -/
def objDelete {α : Type} (k : String) (l : List (String × α)) : List (String × α) :=
  l.filter (fun e => e.1 ≠ k)

/-- The single `localStorage` slot under the recorder's storage key:
`none` models an absent item, `some m` the serialized collection `m`. -/
def LocalStorage : Type := Option (List (String × PathRecord))

/-- `readAllSaved()`: parse the slot, treating an absent item as the empty
collection (the `catch`/non-object fallbacks of the source concern corrupt
blobs, which the typed slot cannot hold). -/
def readAllSaved (ls : LocalStorage) : List (String × PathRecord) :=
  ls.getD []

/-- `writeAllSaved(map)`: serialize the whole collection into the slot. -/
def writeAllSaved (m : List (String × PathRecord)) : LocalStorage :=
  some m

/-- `getSavedPath(name)`: `readAllSaved()[name] || null`. -/
def getSavedPath (name : String) (ls : LocalStorage) : Option PathRecord :=
  objGet name (readAllSaved ls)

/-- `getSavedPathNames()`: `Object.keys(readAllSaved())`. -/
def getSavedPathNames (ls : LocalStorage) : List String :=
  (readAllSaved ls).map (fun e => e.1)

/-- `deleteSavedPath(name)`: delete and re-persist only when the name is
present, otherwise leave the slot untouched. -/
def deleteSavedPath (name : String) (ls : LocalStorage) : LocalStorage :=
  let all := readAllSaved ls
  match objGet name all with
  | some _ => writeAllSaved (objDelete name all)
  | none => ls

/-- The record write performed at the end of `stopCreatePathRecording` (and,
with the same shape, by `savePathToLocalStorage` in the path editor):
`all = readAllSaved(); all[data.name] = data; writeAllSaved(all)`. -/
def saveRecordToStore (data : PathRecord) (ls : LocalStorage) : LocalStorage :=
  writeAllSaved (objSet data.name data (readAllSaved ls))

/-! Association-list facts used by the store claims. -/

/-- Looking up the key just written finds the written value. -/
theorem objGet_objSet_self {α : Type} (k : String) (v : α) (l : List (String × α)) :
    objGet k (objSet k v l) = some v := by
  induction l with
  | nil => simp [objGet, objSet]
  | cons hd t ih =>
    obtain ⟨a, b⟩ := hd
    by_cases ha : a = k
    · simp [objSet, ha, objGet]
    · simp [objSet, ha, objGet, ih]

/-- Writing one key does not disturb lookups of a different key. -/
theorem objGet_objSet_other {α : Type} (k k' : String) (hkk : k' ≠ k) (v : α)
    (l : List (String × α)) : objGet k' (objSet k v l) = objGet k' l := by
  have hk2 : ¬(k = k') := fun h => hkk h.symm
  induction l with
  | nil => simp [objGet, objSet, hk2]
  | cons hd t ih =>
    obtain ⟨a, b⟩ := hd
    by_cases ha : a = k
    · subst ha
      simp [objSet, objGet, hk2]
    · by_cases ha' : a = k'
      · simp [objSet, ha, objGet, ha', hkk]
      · simp [objSet, ha, objGet, ha', ih]

/-- Deleting one key does not disturb lookups of a different key. -/
theorem objGet_objDelete_other {α : Type} (k k' : String) (hkk : k' ≠ k)
    (l : List (String × α)) : objGet k' (objDelete k l) = objGet k' l := by
  induction l with
  | nil => simp [objGet, objDelete]
  | cons hd t ih =>
    obtain ⟨a, b⟩ := hd
    by_cases ha : a = k
    · have hstep : objDelete k ((a, b) :: t) = objDelete k t := by
        simp [objDelete, ha]
      rw [hstep, ih]
      have hk2 : ¬(a = k') := by
        rw [ha]
        exact fun h => hkk h.symm
      simp [objGet, hk2]
    · have hstep : objDelete k ((a, b) :: t) = (a, b) :: objDelete k t := by
        simp [objDelete, ha]
      rw [hstep]
      by_cases ha' : a = k'
      · simp [objGet, ha']
      · simp [objGet, ha', ih]

/-! ## Curve Builder (`src/utils/math3d.js` delegating to `three.js`)

`createSmoothCurve` and `resampleCurve` are one-line wrappers around the
`three.js` curve machinery, so the relevant library methods are embedded
here.  Every construction site in the repository passes the `"catmullrom"`
(uniform, tension `0.5`) curve type, so only that interpolation rule is
modelled.  JavaScript `%` agrees with `Int.emod` on the non-negative
operands these code paths produce. -/

/-- A `THREE.CatmullRomCurve3` as constructed by the repository (curve type
always `"catmullrom"`, tension `0.5`). -/
structure Curve where
  points : List Vec3
  closed : Bool
deriving DecidableEq, Repr

/-- `points[k]` for an integer index (out-of-range access is degenerate in
the source as well; the zero vector stands in for `undefined`). -/
def ptsGet (pts : List Vec3) (k : ℤ) : Vec3 :=
  pts.getD k.toNat Vec3.zero

/-- The `CubicPoly` evaluation of `three.js` for the uniform Catmull-Rom
type: `initCatmullRom(x0, x1, x2, x3, tension = 0.5)` followed by
`calc(weight)`. -/
def catmullCalc (x0 x1 x2 x3 w : ℚ) : ℚ :=
  let v0 := (x2 - x0) * (1 / 2)
  let v1 := (x3 - x1) * (1 / 2)
  let c0 := x1
  let c1 := v0
  let c2 := -3 * x1 + 3 * x2 - 2 * v0 - v1
  let c3 := 2 * x1 - 2 * x2 + v0 + v1
  c0 + c1 * w + c2 * (w * w) + c3 * (w * w * w)

/-- `Math.floor` on an exact rational: the numerator divided by the (positive)
denominator with Euclidean integer division.  Written out explicitly so that
it evaluates by kernel reduction; `qfloor_eq_floor` identifies it with
`Int.floor`. -/
def qfloor (q : ℚ) : ℤ :=
  q.num / (q.den : ℤ)

/-- `qfloor` is the mathematical floor. -/
theorem qfloor_eq_floor (q : ℚ) : qfloor q = ⌊q⌋ :=
  Rat.floor_def.symm

/-- The wrap-around index adjustment for closed curves in
`CatmullRomCurve3.getPoint`:
`intPoint += intPoint > 0 ? 0 : (floor(abs(intPoint) / l) + 1) * l`. -/
def closedAdjust (ip l : ℤ) : ℤ :=
  ip + (if 0 < ip then 0 else ((ip.natAbs : ℤ) / l + 1) * l)

/-- The body of `CatmullRomCurve3.getPoint` after the `intPoint` / `weight`
normalisation: select `p0 p1 p2 p3` (with the open-curve endpoint
extrapolation) and evaluate the three coordinate cubics. -/
def Curve.getPointCore (c : Curve) (intPoint : ℤ) (weight : ℚ) : Vec3 :=
  let pts := c.points
  let l : ℤ := pts.length
  let p0 : Vec3 :=
    if c.closed ∨ 0 < intPoint then ptsGet pts ((intPoint - 1) % l)
    else (Vec3.sub (ptsGet pts 0) (ptsGet pts 1)).add (ptsGet pts 0)
  let p1 := ptsGet pts (intPoint % l)
  let p2 := ptsGet pts ((intPoint + 1) % l)
  let p3 : Vec3 :=
    if c.closed ∨ intPoint + 2 < l then ptsGet pts ((intPoint + 2) % l)
    else (Vec3.sub (ptsGet pts (l - 1)) (ptsGet pts (l - 2))).add (ptsGet pts (l - 1))
  ⟨catmullCalc p0.x p1.x p2.x p3.x weight,
   catmullCalc p0.y p1.y p2.y p3.y weight,
   catmullCalc p0.z p1.z p2.z p3.z weight⟩

/-- `CatmullRomCurve3.getPoint(t)`:
`p = (l - (closed ? 0 : 1)) * t`, split into integer part and weight, with
the closed wrap-around (or open endpoint) adjustment. -/
def Curve.getPoint (c : Curve) (t : ℚ) : Vec3 :=
  let l : ℤ := c.points.length
  let p : ℚ := ((l : ℚ) - (if c.closed then 0 else 1)) * t
  let ip : ℤ := qfloor p
  let w0 : ℚ := p - ip
  if c.closed then c.getPointCore (closedAdjust ip l) w0
  else if w0 = 0 ∧ ip = l - 1 then c.getPointCore (l - 2) 1
  else c.getPointCore ip w0

/-- `Curve.getTangent(t)` of `three.js`: a centred finite difference of
`getPoint` with step `1e-4`, window clamped into `[0, 1]`, normalised. -/
def Curve.getTangent (g : Geom) (c : Curve) (t : ℚ) : Vec3 :=
  let delta : ℚ := 1 / 10000
  let t1 := if t - delta < 0 then 0 else t - delta
  let t2 := if 1 < t + delta then 1 else t + delta
  Vec3.normalize g (Vec3.sub (c.getPoint t2) (c.getPoint t1))

/-- One increment of the arc-length accumulation of `Curve.getLengths` with
the default `arcLengthDivisions = 200`: the distance between the samples at
`k / 200` and `(k + 1) / 200`. -/
def segDist (g : Geom) (c : Curve) (k : ℕ) : ℚ :=
  Vec3.distanceTo g (c.getPoint ((k : ℚ) / 200)) (c.getPoint (((k : ℚ) + 1) / 200))

/-- The cumulative arc-length table of `Curve.getLengths` (index form):
entry `k` is the sum of the first `k` sample distances, entry `0` is `0`. -/
def arcLenFun (g : Geom) (c : Curve) : ℕ → ℚ
  | 0 => 0
  | k + 1 => arcLenFun g c k + segDist g c k

/-- `Curve.getLengths()` (the cached table, 201 entries). -/
def Curve.getLengths (g : Geom) (c : Curve) : List ℚ :=
  (List.range 201).map (arcLenFun g c)

/-- The arc-length table read at an integer index, as the binary search of
`getUtoTmapping` does. -/
def arcLenAt (g : Geom) (c : Curve) (k : ℤ) : ℚ :=
  arcLenFun g c k.toNat

/-- The `while (low <= high)` binary search of `Curve.getUtoTmapping`,
returning the final value of `i` (`= high` on natural exit, the breaking
index on an exact comparison).  The fuel argument bounds the iteration
count; every call below supplies more fuel than the search range needs. -/
def bsearchGo (arr : ℤ → ℚ) (target : ℚ) : ℕ → ℤ → ℤ → ℤ
  | 0, _, high => high
  | fuel + 1, low, high =>
    if low ≤ high then
      let i := low + (high - low) / 2
      let comparison := arr i - target
      if comparison < 0 then bsearchGo arr target fuel (i + 1) high
      else if 0 < comparison then bsearchGo arr target fuel low (i - 1)
      else i
    else high

/-- `Curve.getUtoTmapping(u)`: target arc length `u * total`, binary search
of the table, exact-match shortcut, otherwise linear interpolation inside
the found segment. -/
def Curve.getUtoTmapping (g : Geom) (c : Curve) (u : ℚ) : ℚ :=
  let target := u * arcLenAt g c 200
  let i := bsearchGo (arcLenAt g c) target 250 0 200
  if arcLenAt g c i = target then (i : ℚ) / 200
  else
    let lengthBefore := arcLenAt g c i
    let lengthAfter := arcLenAt g c (i + 1)
    let segmentLength := lengthAfter - lengthBefore
    let segmentFraction := (target - lengthBefore) / segmentLength
    ((i : ℚ) + segmentFraction) / 200

/-- `Curve.getPointAt(u)`: `getPoint(getUtoTmapping(u))`. -/
def Curve.getPointAt (g : Geom) (c : Curve) (u : ℚ) : Vec3 :=
  c.getPoint (c.getUtoTmapping g u)

/-- `Curve.getSpacedPoints(divisions)`: the points `getPointAt(d / divisions)`
for `d = 0 .. divisions`. -/
def Curve.getSpacedPoints (g : Geom) (c : Curve) (divisions : ℤ) : List Vec3 :=
  (List.range (divisions + 1).toNat).map
    (fun d : ℕ => c.getPointAt g ((d : ℚ) / (divisions : ℚ)))

/-- `createSmoothCurve(points, closed)` of `src/utils/math3d.js`:
`new THREE.CatmullRomCurve3(points, closed, "catmullrom")` — a bare
constructor call, with no validation of the point count. -/
def createSmoothCurve (points : List Vec3) (closed : Bool) : Curve :=
  ⟨points, closed⟩

/-- `resampleCurve(curve, numPoints)` of `src/utils/math3d.js`:
`curve.getSpacedPoints(numPoints - 1)`. -/
def resampleCurve (g : Geom) (curve : Curve) (numPoints : ℤ) : List Vec3 :=
  curve.getSpacedPoints g (numPoints - 1)

/-! ### Facts about the embedded curve machinery -/

/-- The closed-curve wrap adjustment maps `0` to `l`. -/
theorem closedAdjust_zero (l : ℤ) : closedAdjust 0 l = l := by
  simp [closedAdjust]

/-- The closed-curve wrap adjustment fixes `l` itself (for `0 ≤ l`). -/
theorem closedAdjust_len (l : ℤ) (hl : 0 ≤ l) : closedAdjust l l = l := by
  rcases lt_or_eq_of_le hl with hpos | hzero
  · simp [closedAdjust, hpos]
  · rw [← hzero]
    simpa using closedAdjust_zero 0

/-- On a closed curve, `getPoint 1 = getPoint 0`: both parameters normalise
to the integer index `l` with interpolation weight `0`. -/
theorem Curve.getPoint_one_eq_zero (c : Curve) (h : c.closed = true) :
    c.getPoint 1 = c.getPoint 0 := by
  have e1 : (((c.points.length : ℤ) : ℚ) - 0) * 1 = ((c.points.length : ℤ) : ℚ) := by
    ring
  have e0 : (((c.points.length : ℤ) : ℚ) - 0) * 0 = ((0 : ℤ) : ℚ) := by
    push_cast
    ring
  have f1 : qfloor ((c.points.length : ℤ) : ℚ) = (c.points.length : ℤ) := by
    rw [qfloor_eq_floor]
    exact Int.floor_intCast _
  have f0 : qfloor ((0 : ℤ) : ℚ) = 0 := by
    rw [qfloor_eq_floor]
    exact Int.floor_intCast _
  simp only [Curve.getPoint, h, if_true]
  rw [e1, e0, f1, f0, closedAdjust_zero, closedAdjust_len _ (Int.ofNat_nonneg _)]
  norm_num

/-- The arc-length accumulator is strictly increasing on indices up to 200
when every sampled segment has positive recorded length. -/
theorem arcLenFun_lt (g : Geom) (c : Curve)
    (H : ∀ k : ℕ, k < 200 → 0 < segDist g c k) :
    ∀ j k : ℕ, j < k → k ≤ 200 → arcLenFun g c j < arcLenFun g c k := by
  intro j k
  induction k with
  | zero => omega
  | succ m ih =>
    intro hjk hk
    have hm : 0 < segDist g c m := H m (by omega)
    have hstep : arcLenFun g c m < arcLenFun g c (m + 1) := by
      simp only [arcLenFun]
      linarith
    rcases Nat.lt_succ_iff_lt_or_eq.mp hjk with hlt | heq
    · exact lt_trans (ih hlt (by omega)) hstep
    · rw [heq]
      exact hstep

/-- The binary search of `getUtoTmapping`, launched on `[0, high]` with a
target that the table meets exactly at index `0` and exceeds everywhere
after, lands on index `0`. -/
theorem bsearchGo_bottom (arr : ℤ → ℚ) (target : ℚ)
    (h0 : arr 0 = target) (hup : ∀ j : ℤ, 0 < j → j ≤ 200 → target < arr j) :
    ∀ fuel : ℕ, ∀ high : ℤ, 0 ≤ high → high ≤ 200 → high < fuel →
      bsearchGo arr target fuel 0 high = 0 := by
  intro fuel
  induction fuel with
  | zero =>
    intro high h1 _ h3
    omega
  | succ f ih =>
    intro high h1 h2 h3
    simp only [bsearchGo, if_pos h1]
    by_cases hz : (0 : ℤ) + (high - 0) / 2 = 0
    · have hc : arr (0 + (high - 0) / 2) - target = 0 := by
        rw [hz, h0]
        ring
      rw [if_neg (by rw [hc]; exact lt_irrefl 0), if_neg (by rw [hc]; exact lt_irrefl 0)]
      exact hz
    · have hi0 : 0 ≤ (0 : ℤ) + (high - 0) / 2 := by omega
      have hile : (0 : ℤ) + (high - 0) / 2 ≤ high := by omega
      have hipos : 0 < (0 : ℤ) + (high - 0) / 2 := by omega
      have ht : target < arr (0 + (high - 0) / 2) :=
        hup _ hipos (by omega)
      rw [if_neg (by linarith), if_pos (by linarith)]
      exact ih _ (by omega) (by omega) (by omega)

/-- The binary search of `getUtoTmapping`, launched on `[low, 200]` with a
target that the table meets exactly at index `200` and stays below
everywhere before, lands on index `200`. -/
theorem bsearchGo_top (arr : ℤ → ℚ) (target : ℚ)
    (htop : arr 200 = target) (hlow : ∀ j : ℤ, 0 ≤ j → j < 200 → arr j < target) :
    ∀ fuel : ℕ, ∀ low : ℤ, 0 ≤ low → low ≤ 200 → 200 - low < fuel →
      bsearchGo arr target fuel low 200 = 200 := by
  intro fuel
  induction fuel with
  | zero =>
    intro low h1 h2 h3
    omega
  | succ f ih =>
    intro low h1 h2 h3
    simp only [bsearchGo, if_pos h2]
    by_cases hz : low + (200 - low) / 2 = 200
    · have hc : arr (low + (200 - low) / 2) - target = 0 := by
        rw [hz, htop]
        ring
      rw [if_neg (by rw [hc]; exact lt_irrefl 0), if_neg (by rw [hc]; exact lt_irrefl 0)]
      exact hz
    · have hi0 : 0 ≤ low + (200 - low) / 2 := by omega
      have hilt : low + (200 - low) / 2 < 200 := by omega
      have hge : low ≤ low + (200 - low) / 2 := by omega
      have ht : arr (low + (200 - low) / 2) < target :=
        hlow _ hi0 hilt
      rw [if_pos (by linarith)]
      exact ih _ (by omega) (by omega) (by omega)

/-- Under positive sampled segment lengths, the arc-length reparameterisation
fixes `u = 0`: the search finds the exact entry `0` of the table. -/
theorem Curve.getUtoTmapping_zero (g : Geom) (c : Curve)
    (H : ∀ k : ℕ, k < 200 → 0 < segDist g c k) :
    c.getUtoTmapping g 0 = 0 := by
  have hA0 : arcLenAt g c 0 = 0 := rfl
  have h0 : arcLenAt g c 0 = (0 : ℚ) * arcLenAt g c 200 := by
    rw [hA0, zero_mul]
  have hup : ∀ j : ℤ, 0 < j → j ≤ 200 → (0 : ℚ) * arcLenAt g c 200 < arcLenAt g c j := by
    intro j hj hj2
    rw [zero_mul]
    have h01 : (0 : ℚ) = arcLenFun g c 0 := rfl
    show (0 : ℚ) < arcLenFun g c j.toNat
    rw [h01]
    exact arcLenFun_lt g c H 0 j.toNat (by omega) (by omega)
  have hb : bsearchGo (arcLenAt g c) ((0 : ℚ) * arcLenAt g c 200) 250 0 200 = 0 :=
    bsearchGo_bottom _ _ h0 hup 250 200 (by omega) (by omega) (by omega)
  simp only [Curve.getUtoTmapping, hb]
  rw [if_pos h0]
  norm_num

/-- Under positive sampled segment lengths, the arc-length reparameterisation
fixes `u = 1`: the search finds the exact entry `200` of the table. -/
theorem Curve.getUtoTmapping_one (g : Geom) (c : Curve)
    (H : ∀ k : ℕ, k < 200 → 0 < segDist g c k) :
    c.getUtoTmapping g 1 = 1 := by
  have htop : arcLenAt g c 200 = (1 : ℚ) * arcLenAt g c 200 := by
    ring
  have hlow : ∀ j : ℤ, 0 ≤ j → j < 200 → arcLenAt g c j < (1 : ℚ) * arcLenAt g c 200 := by
    intro j hj hj2
    rw [one_mul]
    have h200 : arcLenAt g c 200 = arcLenFun g c 200 := rfl
    rw [h200]
    show arcLenFun g c j.toNat < arcLenFun g c 200
    exact arcLenFun_lt g c H j.toNat 200 (by omega) (by omega)
  have hb : bsearchGo (arcLenAt g c) ((1 : ℚ) * arcLenAt g c 200) 250 0 200 = 200 :=
    bsearchGo_top _ _ htop hlow 250 0 (by omega) (by omega) (by omega)
  simp only [Curve.getUtoTmapping, hb]
  rw [if_pos htop]
  norm_num

/-- `getSpacedPoints` always returns `divisions + 1` points (clamped at zero
for a negative division count, where the source loop body never runs). -/
theorem Curve.getSpacedPoints_length (g : Geom) (c : Curve) (divisions : ℤ) :
    (c.getSpacedPoints g divisions).length = (divisions + 1).toNat := by
  simp [Curve.getSpacedPoints]

/-- The first spaced point is the sample at `u = 0`. -/
theorem Curve.getSpacedPoints_head (g : Geom) (c : Curve) (divisions : ℤ)
    (hd : 0 ≤ divisions) :
    (c.getSpacedPoints g divisions).head? = some (c.getPointAt g 0) := by
  obtain ⟨m, hm⟩ : ∃ m, (divisions + 1).toNat = m + 1 := ⟨divisions.toNat, by omega⟩
  simp only [Curve.getSpacedPoints, hm, List.head?_map]
  rw [List.head?_eq_getElem?, List.getElem?_range (by omega : 0 < m + 1)]
  simp

/-- The last spaced point is the sample at `u = 1` (for `divisions ≥ 1`). -/
theorem Curve.getSpacedPoints_getLast (g : Geom) (c : Curve) (divisions : ℤ)
    (hd : 1 ≤ divisions) :
    (c.getSpacedPoints g divisions).getLast? = some (c.getPointAt g 1) := by
  have hm : (divisions + 1).toNat = divisions.toNat + 1 := by omega
  have hcast : ((divisions.toNat : ℚ)) = ((divisions : ℚ)) := by
    have h := Int.toNat_of_nonneg (by omega : (0 : ℤ) ≤ divisions)
    exact_mod_cast h
  have hdiv : ((divisions.toNat : ℚ)) / ((divisions : ℚ)) = 1 := by
    rw [hcast]
    apply div_self
    intro hz
    have : divisions = 0 := by exact_mod_cast hz
    omega
  simp only [Curve.getSpacedPoints, hm, List.range_succ, List.map_append,
    List.map_cons, List.map_nil]
  rw [List.getLast?_concat, hdiv]

/-- Under positive sampled segment lengths, the spaced sample at `u = 0` is
the curve point at parameter `0`. -/
theorem Curve.getPointAt_zero (g : Geom) (c : Curve)
    (H : ∀ k : ℕ, k < 200 → 0 < segDist g c k) :
    c.getPointAt g 0 = c.getPoint 0 := by
  unfold Curve.getPointAt
  rw [Curve.getUtoTmapping_zero g c H]

/-- Under positive sampled segment lengths, the spaced sample at `u = 1` is
the curve point at parameter `1`. -/
theorem Curve.getPointAt_one (g : Geom) (c : Curve)
    (H : ∀ k : ℕ, k < 200 → 0 < segDist g c k) :
    c.getPointAt g 1 = c.getPoint 1 := by
  unfold Curve.getPointAt
  rw [Curve.getUtoTmapping_one g c H]

/-! ## Agent Path Player (`src/carAI.js`)

The hosting lines are modelled at their interface as pose providers (their
current world matrix and world quaternion); `updateMatrixWorld()` calls are
no-ops on this snapshot.  `Object3D.lookAt` is the `Geom.lookAtQuat`
parameter. -/

/-- A displayed path line: the world transform data `updateCarAI` reads from
it (`matrixWorld` after `updateMatrixWorld()`, `getWorldQuaternion`). -/
structure Line where
  matrixWorld : Mat4
  worldQuat : Quat
deriving DecidableEq, Repr

/-- A car scene object: the fields `updateCarAI` touches. -/
structure Car where
  position : Vec3
  quaternion : Quat
deriving DecidableEq, Repr

/-- An optional physics body attached to a car: the fields `updateCarAI`
touches. -/
structure Body where
  position : Vec3
  quaternion : Quat
  velocity : Vec3
  angularVelocity : Vec3
deriving DecidableEq, Repr

/-- Per-car playback state `{progress, speed, done}`; a missing or
non-numeric `speed` is `none` (the source substitutes `0`), a missing `done`
is the falsy `false`. -/
structure AIState where
  progress : ℚ
  speed : Option ℚ
  done : Bool
deriving DecidableEq, Repr

/-- A per-car path override entry `{curve, line}` of `perCarPaths`. -/
structure PathPair where
  curve : Option Curve
  line : Option Line
deriving DecidableEq, Repr

/-- JavaScript truncation toward zero (`Math.trunc`, the integer part used
by the `%` operator). -/
def qtrunc (q : ℚ) : ℤ :=
  if 0 ≤ q then qfloor q else -qfloor (-q)

/-- The JavaScript remainder operator `a % b` on numbers:
`a - b * trunc(a / b)` (sign follows the dividend). -/
def jsMod (a b : ℚ) : ℚ :=
  a - b * (qtrunc (a / b) : ℚ)

/-- `car.lookAt(target)`: reorient the object toward `target`; the resulting
quaternion is the `Geom.lookAtQuat` black box applied to the object's
(already updated) position and the target. -/
def lookAt (g : Geom) (car : Car) (target : Vec3) : Car :=
  { car with quaternion := g.lookAtQuat car.position target }

/-- The body of the per-car loop of `updateCarAI`, for one car with its
already-selected path `(curve, line)`: the `state.done` hold branch, or the
progress advance / clamp / wrap branch followed by the pose write-back. -/
def stepAgent (g : Geom) (curve : Curve) (line : Line) (delta : ℚ)
    (car : Car) (body : Option Body) (state : AIState) :
    Car × Option Body × AIState :=
  if state.done then
    let last := curve.getPoint 1
    let lastPos := last.applyMatrix4 line.matrixWorld
    let prev := curve.getPoint (999 / 1000)
    let tangent := Vec3.normalize g (last.sub prev)
    let worldTangent := tangent.applyQuaternion line.worldQuat
    let car2 := lookAt g { car with position := lastPos } (lastPos.add worldTangent)
    let body2 := body.map (fun b =>
      { b with position := lastPos, quaternion := car2.quaternion,
               velocity := Vec3.zero, angularVelocity := Vec3.zero })
    (car2, body2, state)
  else
    let speed := state.speed.getD 0
    let nextProgress := state.progress + speed * delta
    let isClosed := curve.closed
    let state2 : AIState :=
      if isClosed = false ∧ 1 ≤ nextProgress then
        { state with progress := 1, done := true }
      else
        { state with progress := if isClosed then jsMod nextProgress 1 else nextProgress }
    let t := state2.progress
    let localPos := curve.getPoint t
    let tangent := Vec3.normalize g (curve.getTangent g (max 0 (t - 1 / 1000)))
    let newPos := localPos.applyMatrix4 line.matrixWorld
    let worldTangent := tangent.applyQuaternion line.worldQuat
    let car2 := lookAt g { car with position := newPos } (newPos.add worldTangent)
    let body2 := body.map (fun b =>
      let b1 := { b with position := newPos, quaternion := car2.quaternion }
      if state2.done then
        { b1 with velocity := Vec3.zero, angularVelocity := Vec3.zero }
      else b1)
    (car2, body2, state2)

/-- The per-car path selection of `updateCarAI`: the override entry when it
exists and carries both a curve and a line, else the defaults. -/
def selPath (perCarPaths : Option (List (Option PathPair))) (i : ℕ)
    (dc : Curve) (dl : Line) : Curve × Line :=
  match perCarPaths with
  | some l =>
    match l.getD i none with
    | some pp =>
      match pp.curve, pp.line with
      | some cu, some li => (cu, li)
      | _, _ => (dc, dl)
    | none => (dc, dl)
  | none => (dc, dl)

/-- The effect of loop iteration `i` of `updateCarAI`: `none` when the car
or its state is missing (`continue`), otherwise the updated car, body and
state from `stepAgent`. -/
def stepAt (g : Geom) (dc : Curve) (dl : Line) (delta : ℚ)
    (perCarPaths : Option (List (Option PathPair)))
    (cars : List (Option Car)) (bodies : List (Option Body))
    (states : List (Option AIState)) (i : ℕ) :
    Option (Car × Option Body × AIState) :=
  match cars.getD i none, states.getD i none with
  | some car, some st =>
    let p := selPath perCarPaths i dc dl
    some (stepAgent g p.1 p.2 delta car (bodies.getD i none) st)
  | _, _ => none

/-- The outcome of one `updateCarAI` call: whether the missing-argument
guard fired, and the car / body / state rosters after the call. -/
structure UpdateResult where
  errored : Bool
  carObjects : Option (List (Option Car))
  carBodies : Option (List (Option Body))
  carAIStates : Option (List (Option AIState))
deriving DecidableEq, Repr

/-- `updateCarAI(carObjects, carBodies, carAIStates, defaultRacePath,
defaultRacePathLine, delta, perCarPaths)`: the missing-argument guard, then
the per-index loop.  Iteration `i` reads and writes only index `i`, so the
in-place array mutation is the indexed map of `stepAt`; indices the loop
does not reach (beyond `carObjects.length`, or with a missing car/state)
keep their input entries. -/
def updateCarAI (g : Geom)
    (carObjects : Option (List (Option Car)))
    (carBodies : Option (List (Option Body)))
    (carAIStates : Option (List (Option AIState)))
    (defaultRacePath : Option Curve)
    (defaultRacePathLine : Option Line)
    (delta : ℚ)
    (perCarPaths : Option (List (Option PathPair))) : UpdateResult :=
  match carObjects, carBodies, carAIStates, defaultRacePath, defaultRacePathLine with
  | some cars, some bodies, some states, some dc, some dl =>
    let step := stepAt g dc dl delta perCarPaths cars bodies states
    { errored := false
      carObjects := some (cars.mapIdx (fun i c =>
        match step i with
        | some r => some r.1
        | none => c))
      carBodies := some (bodies.mapIdx (fun i b =>
        match step i with
        | some r => r.2.1
        | none => b))
      carAIStates := some (states.mapIdx (fun i s =>
        match step i with
        | some r => some r.2.2
        | none => s)) }
  | _, _, _, _, _ =>
    { errored := true, carObjects := carObjects, carBodies := carBodies,
      carAIStates := carAIStates }

/-! ## Path Recorder (`createPath.js`) -/

/-- The overlay line hosting a live recording: the fields
`stopCreatePathRecording` reads for the saved transform. -/
structure Overlay where
  position : Vec3
  rotation : Vec3
  scale : Vec3
deriving DecidableEq, Repr

/-- The module-level `recorderState` of `createPath.js`.  The agent-position
provider is a callback; the state records only whether one is registered,
and `updateCreatePath` receives the provider's current answer as an input
(`none` also covers a `null` position). -/
structure RecorderState where
  isRecording : Bool
  name : String
  pointsWorld : List Vec3
  minSampleDistance : ℚ
  overlayLineRef : Option Overlay
  overlayInverseMatrix : Mat4
  lastSampled : Option Vec3
  params : PathParams
  hasCarPositionFn : Bool
deriving DecidableEq, Repr

/-- `updateCreatePath(delta)`: no-op unless recording with a registered
provider; fetch the position; append it (and move the last-sample marker)
exactly when there is no previous sample or the squared distance to it
exceeds `minSampleDistance ** 2`. -/
def updateCreatePath (delta : ℚ) (st : RecorderState) (carPos : Option Vec3) :
    RecorderState :=
  if st.isRecording = false ∨ st.hasCarPositionFn = false then st
  else
    match carPos with
    | none => st
    | some p =>
      match st.lastSampled with
      | none => { st with pointsWorld := st.pointsWorld ++ [p], lastSampled := some p }
      | some q =>
        if st.minSampleDistance ^ 2 < p.distanceToSquared q then
          { st with pointsWorld := st.pointsWorld ++ [p], lastSampled := some p }
        else st

/-- `stopCreatePathRecording({closeLoop, resampleCount})`, returning the
produced record (or `null`), the recorder state and the storage slot after
the call.  `now` is the external `Date.now()` clock reading.  `exn` models a
runtime exception raised inside the `try` block (the source catches it,
returns `null`, and still runs the `finally` clearing); the store write
itself never throws out of `writeAllSaved`, which catches internally. -/
def stopCreatePathRecording (g : Geom) (exn : Bool) (closeLoop : Bool)
    (resampleCount : ℤ) (now : ℚ) (st : RecorderState) (ls : LocalStorage) :
    Option PathRecord × RecorderState × LocalStorage :=
  if st.isRecording = false then (none, st, ls)
  else
    let stFin : RecorderState :=
      { st with isRecording := false, pointsWorld := [], lastSampled := none }
    if exn then (none, stFin, ls)
    else
      let localPoints := st.pointsWorld.map (fun p => p.applyMatrix4 st.overlayInverseMatrix)
      let pts :=
        if closeLoop ∧ 1 < localPoints.length then localPoints ++ [localPoints.headD Vec3.zero]
        else localPoints
      let sampled :=
        if resampleCount ≠ 0 ∧ 4 ≤ pts.length then
          Curve.getSpacedPoints g ⟨pts, closeLoop⟩ (max 2 resampleCount - 1)
        else pts
      let transform : PathTransform :=
        match st.overlayLineRef with
        | some ov => { position := ov.position, rotation := ov.rotation, scale := ov.scale }
        | none => { position := Vec3.zero, rotation := ⟨0, 0, 0⟩, scale := ⟨1, 1, 1⟩ }
      let data : PathRecord :=
        { name := st.name, createdAt := now, transform := transform,
          params := st.params,
          racePathPoints := sampled.map (fun p => (p.x, p.y, p.z)) }
      (some data, stFin, saveRecordToStore data ls)

/-! ## Store frame helpers -/

/-- Frame helper: a `getSavedPath` under a different name is unaffected by
the record write of `stopCreatePathRecording` / `savePathToLocalStorage`. -/
theorem getSavedPath_save_other (m : String) (r : PathRecord) (ls : LocalStorage)
    (hm : m ≠ r.name) :
    getSavedPath m (saveRecordToStore r ls) = getSavedPath m ls := by
  simp only [getSavedPath, saveRecordToStore, writeAllSaved, readAllSaved, Option.getD_some]
  exact objGet_objSet_other r.name m hm r _

/-- Frame helper: a `getSavedPath` under a different name is unaffected by
`deleteSavedPath`. -/
theorem getSavedPath_delete_other (m n : String) (ls : LocalStorage) (hn : m ≠ n) :
    getSavedPath m (deleteSavedPath n ls) = getSavedPath m ls := by
  have hd : deleteSavedPath n ls =
      match objGet n (readAllSaved ls) with
      | some _ => writeAllSaved (objDelete n (readAllSaved ls))
      | none => ls := rfl
  rw [hd]
  cases h : objGet n (readAllSaved ls) with
  | none => rfl
  | some v =>
    show getSavedPath m (writeAllSaved (objDelete n (readAllSaved ls))) = getSavedPath m ls
    simp only [getSavedPath, writeAllSaved, readAllSaved, Option.getD_some]
    exact objGet_objDelete_other n m hn _

/-! ## Claim theorems -/

/-- C1.  Path Store round-trip: writing a record (the save performed at the
end of `stopCreatePathRecording` / `savePathToLocalStorage`) and immediately
loading the same name via `getSavedPath` returns the identical record,
field for field, with `racePathPoints` in the array-of-arrays encoding. -/
theorem pathStore_roundTrip (ls : LocalStorage) (r : PathRecord) :
    getSavedPath r.name (saveRecordToStore r ls) = some r := by
  simp only [getSavedPath, saveRecordToStore, writeAllSaved, readAllSaved, Option.getD_some]
  exact objGet_objSet_self r.name r _

/-- C10.  Store frame property: for distinct names, both the record write of
`stopCreatePathRecording` under one name and `deleteSavedPath` of that name
leave the record stored under the other name unchanged (also in
composition). -/
theorem pathStore_frame (ls : LocalStorage) (r : PathRecord) (n m : String)
    (hm : m ≠ r.name) (hn : m ≠ n) :
    getSavedPath m (saveRecordToStore r ls) = getSavedPath m ls ∧
    getSavedPath m (deleteSavedPath n ls) = getSavedPath m ls ∧
    getSavedPath m (deleteSavedPath n (saveRecordToStore r ls)) = getSavedPath m ls := by
  refine ⟨getSavedPath_save_other m r ls hm, getSavedPath_delete_other m n ls hn, ?_⟩
  rw [getSavedPath_delete_other m n _ hn, getSavedPath_save_other m r ls hm]

/-- Witness for C10 at a concrete store, record and pair of distinct names. -/
theorem pathStore_frame_witness :
    getSavedPath "other"
        (saveRecordToStore
          { name := "loop1", createdAt := 5,
            transform := { position := Vec3.zero, rotation := ⟨0, 0, 0⟩, scale := ⟨1, 1, 1⟩ },
            params := { speed := 1 / 100, kinematic := none },
            racePathPoints := [(0, 0, 0), (1, 0, 0)] } (none : LocalStorage)) =
      getSavedPath "other" (none : LocalStorage) ∧
    getSavedPath "other" (deleteSavedPath "loop1" (none : LocalStorage)) =
      getSavedPath "other" (none : LocalStorage) ∧
    getSavedPath "other"
        (deleteSavedPath "loop1"
          (saveRecordToStore
            { name := "loop1", createdAt := 5,
              transform := { position := Vec3.zero, rotation := ⟨0, 0, 0⟩, scale := ⟨1, 1, 1⟩ },
              params := { speed := 1 / 100, kinematic := none },
              racePathPoints := [(0, 0, 0), (1, 0, 0)] } (none : LocalStorage))) =
      getSavedPath "other" (none : LocalStorage) :=
  pathStore_frame (none : LocalStorage) _ "loop1" "other" (by decide) (by decide)

/-- C5 (amended).  `createSmoothCurve` performs no point-count validation:
for every list of points — including fewer than 2 — it returns a
`CatmullRomCurve3` holding exactly those points and the requested closed
flag; no `InsufficientPointsError` exists in the code. -/
theorem createSmoothCurve_no_validation (points : List Vec3) (closed : Bool) :
    (createSmoothCurve points closed).points = points ∧
    (createSmoothCurve points closed).closed = closed :=
  ⟨rfl, rfl⟩

/-- C5 counterexample to the claim as stated: a curve built from fewer than
2 points is not refused — the constructor returns a curve carrying the
single given point (and even evaluates at `t = 0` to that point), so no
`InsufficientPointsError` is raised. -/
theorem createSmoothCurve_singleton_succeeds :
    (createSmoothCurve [(⟨5, 6, 7⟩ : Vec3)] true).points = [(⟨5, 6, 7⟩ : Vec3)] ∧
    (createSmoothCurve ([] : List Vec3) false).points = [] ∧
    (createSmoothCurve [(⟨5, 6, 7⟩ : Vec3)] true).getPoint 0 = ⟨5, 6, 7⟩ := by
  refine ⟨rfl, rfl, ?_⟩
  with_unfolding_all decide

/-- C3.  Resample count: `resampleCurve(curve, n)`, implemented as
`curve.getSpacedPoints(n - 1)`, returns exactly `n` points for every
`n ≥ 2` and every curve built from at least 2 points. -/
theorem resampleCurve_count (g : Geom) (curve : Curve) (numPoints : ℤ)
    (hn : 2 ≤ numPoints) (hpts : 2 ≤ curve.points.length) :
    ((resampleCurve g curve numPoints).length : ℤ) = numPoints := by
  unfold resampleCurve
  rw [Curve.getSpacedPoints_length]
  omega

/-- Witness for C3 at a concrete curve and count. -/
theorem resampleCurve_count_witness :
    ((resampleCurve testGeom ⟨[⟨0, 0, 0⟩, ⟨1, 0, 0⟩, ⟨1, 1, 0⟩], false⟩ 7).length : ℤ) = 7 :=
  resampleCurve_count testGeom ⟨[⟨0, 0, 0⟩, ⟨1, 0, 0⟩, ⟨1, 1, 0⟩], false⟩ 7
    (by decide) (by decide)

/-- A concrete closed test curve (unit-square control points), used by the
closed statements about closed-curve resampling. -/
def squareCurve : Curve :=
  ⟨[⟨0, 0, 0⟩, ⟨1, 0, 0⟩, ⟨1, 1, 0⟩, ⟨0, 1, 0⟩], true⟩

set_option maxHeartbeats 4000000 in
set_option maxRecDepth 100000 in
/-- Every arc-length sample increment of the concrete test curve is positive
under the concrete test geometry (checked by evaluation). -/
theorem squareCurve_segDist_pos : ∀ k : ℕ, k < 200 → 0 < segDist testGeom squareCurve k := by
  with_unfolding_all decide

/-- C4 (amended).  Closed-curve resampling: for every closed curve whose
sampled arc-length table is strictly increasing, and every count `n ≥ 2`,
the resampled sequence starts with the curve point at `t = 0` — but its
last point EQUALS the first (for a closed curve `getPointAt 1 = getPointAt 0`),
so the final resampled point does duplicate the first. -/
theorem resampleCurve_closed_endpoints (g : Geom) (curve : Curve) (numPoints : ℤ)
    (hc : curve.closed = true) (hn : 2 ≤ numPoints)
    (H : ∀ k : ℕ, k < 200 → 0 < segDist g curve k) :
    (resampleCurve g curve numPoints).head? = some (curve.getPoint 0) ∧
    (resampleCurve g curve numPoints).getLast? = (resampleCurve g curve numPoints).head? := by
  have h1 : (resampleCurve g curve numPoints).head? = some (curve.getPointAt g 0) := by
    unfold resampleCurve
    exact Curve.getSpacedPoints_head g curve _ (by omega)
  have h2 : (resampleCurve g curve numPoints).getLast? = some (curve.getPointAt g 1) := by
    unfold resampleCurve
    exact Curve.getSpacedPoints_getLast g curve _ (by omega)
  have hz := Curve.getPointAt_zero g curve H
  have ho := Curve.getPointAt_one g curve H
  refine ⟨by rw [h1, hz], ?_⟩
  rw [h1, h2, hz, ho, Curve.getPoint_one_eq_zero curve hc]

/-- Witness for C4 (amended) at the concrete closed test curve. -/
theorem resampleCurve_closed_endpoints_witness :
    (resampleCurve testGeom squareCurve 5).head? = some (squareCurve.getPoint 0) ∧
    (resampleCurve testGeom squareCurve 5).getLast? = (resampleCurve testGeom squareCurve 5).head? :=
  resampleCurve_closed_endpoints testGeom squareCurve 5 rfl (by decide) squareCurve_segDist_pos

/-- C4 counterexample to the claim as stated: at the concrete closed test
curve and count 5, the last resampled point is EQUAL to the first resampled
point (which is the sample at `t = 0`), refuting "the last returned point
does not duplicate the first". -/
theorem resampleCurve_closed_duplicates_first :
    (resampleCurve testGeom squareCurve 5).getLast? = (resampleCurve testGeom squareCurve 5).head? ∧
    (resampleCurve testGeom squareCurve 5).head? = some (squareCurve.getPoint 0) := by
  have h1 : (resampleCurve testGeom squareCurve 5).head? = some (squareCurve.getPointAt testGeom 0) := by
    unfold resampleCurve
    exact Curve.getSpacedPoints_head testGeom squareCurve 4 (by omega)
  have h2 : (resampleCurve testGeom squareCurve 5).getLast? = some (squareCurve.getPointAt testGeom 1) := by
    unfold resampleCurve
    exact Curve.getSpacedPoints_getLast testGeom squareCurve 4 (by omega)
  have hz := Curve.getPointAt_zero testGeom squareCurve squareCurve_segDist_pos
  have ho := Curve.getPointAt_one testGeom squareCurve squareCurve_segDist_pos
  have hw : squareCurve.getPoint 1 = squareCurve.getPoint 0 :=
    Curve.getPoint_one_eq_zero squareCurve rfl
  constructor
  · rw [h1, h2, hz, ho, hw]
  · rw [h1, hz]

/-- An idle recorder state used by witness statements. -/
def idleRecorder : RecorderState :=
  { isRecording := false, name := "lap", pointsWorld := [], minSampleDistance := 3 / 4,
    overlayLineRef := none, overlayInverseMatrix := Mat4.identity, lastSampled := none,
    params := { speed := 1 / 100, kinematic := none }, hasCarPositionFn := true }

/-- A recorder state in the middle of a session, used by witness statements. -/
def activeRecorder : RecorderState :=
  { idleRecorder with
    isRecording := true,
    pointsWorld := [⟨0, 0, 0⟩, ⟨2, 0, 0⟩],
    lastSampled := some ⟨2, 0, 0⟩ }

/-- C7.  Recorder stop atomicity: `stopCreatePathRecording` returns `null`
and changes nothing when the recorder is not recording; when it is
recording, every call — with or without an exception inside the `try`
block — leaves the recorder out of the recording state with the sampled
points and last-sample marker cleared. -/
theorem stopCreatePathRecording_atomic (g : Geom) (exn closeLoop : Bool)
    (resampleCount : ℤ) (now : ℚ) (st : RecorderState) (ls : LocalStorage) :
    (st.isRecording = false →
      stopCreatePathRecording g exn closeLoop resampleCount now st ls = (none, st, ls)) ∧
    (st.isRecording = true →
      (stopCreatePathRecording g exn closeLoop resampleCount now st ls).2.1.isRecording = false ∧
      (stopCreatePathRecording g exn closeLoop resampleCount now st ls).2.1.pointsWorld = [] ∧
      (stopCreatePathRecording g exn closeLoop resampleCount now st ls).2.1.lastSampled = none) := by
  constructor
  · intro h
    simp [stopCreatePathRecording, h]
  · intro h
    by_cases he : exn <;> simp [stopCreatePathRecording, h, he]

/-- Witness for C7: an idle stop is a pure no-op, and a stop that hits an
exception still clears the active session. -/
theorem stopCreatePathRecording_atomic_witness :
    stopCreatePathRecording testGeom false true 16 0 idleRecorder (none : LocalStorage) =
      (none, idleRecorder, (none : LocalStorage)) ∧
    ((stopCreatePathRecording testGeom true true 16 0 activeRecorder
        (none : LocalStorage)).2.1.isRecording = false ∧
     (stopCreatePathRecording testGeom true true 16 0 activeRecorder
        (none : LocalStorage)).2.1.pointsWorld = [] ∧
     (stopCreatePathRecording testGeom true true 16 0 activeRecorder
        (none : LocalStorage)).2.1.lastSampled = none) :=
  ⟨(stopCreatePathRecording_atomic testGeom false true 16 0 idleRecorder none).1 rfl,
   (stopCreatePathRecording_atomic testGeom true true 16 0 activeRecorder none).2 rfl⟩

/-- C8.  Distance-gated sampling: while recording with a registered
provider, a tick appends the fetched position and moves the last-sample
marker exactly when no prior sample exists or the squared distance to the
last sample exceeds `minSampleDistance²`; otherwise, and whenever not
recording, the state is unchanged. -/
theorem updateCreatePath_gated (delta : ℚ) (st : RecorderState) (p : Vec3) :
    (st.isRecording = false → ∀ pos : Option Vec3, updateCreatePath delta st pos = st) ∧
    (st.isRecording = true → st.hasCarPositionFn = true →
      ((st.lastSampled = none →
          updateCreatePath delta st (some p) =
            { st with pointsWorld := st.pointsWorld ++ [p], lastSampled := some p }) ∧
       (∀ q, st.lastSampled = some q →
          st.minSampleDistance ^ 2 < p.distanceToSquared q →
          updateCreatePath delta st (some p) =
            { st with pointsWorld := st.pointsWorld ++ [p], lastSampled := some p }) ∧
       (∀ q, st.lastSampled = some q →
          ¬ st.minSampleDistance ^ 2 < p.distanceToSquared q →
          updateCreatePath delta st (some p) = st))) := by
  constructor
  · intro h pos
    simp [updateCreatePath, h]
  · intro h1 h2
    refine ⟨?_, ?_, ?_⟩
    · intro hnone
      simp [updateCreatePath, h1, h2, hnone]
    · intro q hq hlt
      simp [updateCreatePath, h1, h2, hq, hlt]
    · intro q hq hnlt
      simp [updateCreatePath, h1, h2, hq, hnlt]

/-- Witness for C8: an idle tick is a no-op; a far-enough position is
appended; a too-close position leaves the session unchanged. -/
theorem updateCreatePath_gated_witness :
    updateCreatePath 1 idleRecorder (some ⟨4, 0, 0⟩) = idleRecorder ∧
    updateCreatePath 1 activeRecorder (some ⟨4, 0, 0⟩) =
      { activeRecorder with
        pointsWorld := activeRecorder.pointsWorld ++ [⟨4, 0, 0⟩],
        lastSampled := some ⟨4, 0, 0⟩ } ∧
    updateCreatePath 1 activeRecorder (some ⟨2, 0, 1 / 2⟩) = activeRecorder :=
  ⟨(updateCreatePath_gated 1 idleRecorder ⟨4, 0, 0⟩).1 rfl _,
   ((updateCreatePath_gated 1 activeRecorder ⟨4, 0, 0⟩).2 rfl rfl).2.1 ⟨2, 0, 0⟩ rfl
     (by with_unfolding_all decide),
   ((updateCreatePath_gated 1 activeRecorder ⟨2, 0, 1 / 2⟩).2 rfl rfl).2.2 ⟨2, 0, 0⟩ rfl
     (by with_unfolding_all decide)⟩

/-- C9.  Player argument check with no partial effect: when any of the five
required arguments (`carObjects`, `carBodies`, `carAIStates`,
`defaultRacePath`, `defaultRacePathLine`) is missing, `updateCarAI` errors
out as a whole and returns every roster exactly as it was — no agent's
state, position, orientation or body is touched. -/
theorem updateCarAI_missing_args (g : Geom)
    (carObjects : Option (List (Option Car)))
    (carBodies : Option (List (Option Body)))
    (carAIStates : Option (List (Option AIState)))
    (defaultRacePath : Option Curve)
    (defaultRacePathLine : Option Line)
    (delta : ℚ)
    (perCarPaths : Option (List (Option PathPair)))
    (h : carObjects = none ∨ carBodies = none ∨ carAIStates = none ∨
         defaultRacePath = none ∨ defaultRacePathLine = none) :
    updateCarAI g carObjects carBodies carAIStates defaultRacePath
        defaultRacePathLine delta perCarPaths =
      { errored := true, carObjects := carObjects, carBodies := carBodies,
        carAIStates := carAIStates } := by
  cases carObjects <;> cases carBodies <;> cases carAIStates <;>
    cases defaultRacePath <;> cases defaultRacePathLine <;>
    simp_all [updateCarAI]

/-- Witness for C9: a call with a missing default curve errors and leaves
the rosters untouched. -/
theorem updateCarAI_missing_args_witness :
    updateCarAI testGeom
        (some [some { position := ⟨3, 0, 0⟩, quaternion := ⟨0, 0, 0, 1⟩ }])
        (some [none]) (some [some { progress := 0, speed := some (1 / 10), done := false }])
        none (some { matrixWorld := Mat4.identity, worldQuat := ⟨0, 0, 0, 1⟩ }) 1 none =
      { errored := true,
        carObjects := some [some { position := ⟨3, 0, 0⟩, quaternion := ⟨0, 0, 0, 1⟩ }],
        carBodies := some [none],
        carAIStates := some [some { progress := 0, speed := some (1 / 10), done := false }] } :=
  updateCarAI_missing_args testGeom _ _ _ none _ 1 none
    (Or.inr (Or.inr (Or.inr (Or.inl rfl))))

/-! ### Player helpers -/

/-- Iteration `i` of the `updateCarAI` loop, when car and state are present,
runs `stepAgent` on the selected path. -/
theorem stepAt_of_present (g : Geom) (dc : Curve) (dl : Line) (delta : ℚ)
    (perCarPaths : Option (List (Option PathPair)))
    (cars : List (Option Car)) (bodies : List (Option Body))
    (states : List (Option AIState)) (i : ℕ) (car : Car) (s : AIState)
    (hcar : cars[i]? = some (some car)) (hstate : states[i]? = some (some s)) :
    stepAt g dc dl delta perCarPaths cars bodies states i =
      some (stepAgent g (selPath perCarPaths i dc dl).1 (selPath perCarPaths i dc dl).2
        delta car (bodies.getD i none) s) := by
  unfold stepAt
  simp only [List.getD_eq_getElem?_getD, hcar, hstate, Option.getD_some]

/-- The rosters produced by a non-errored `updateCarAI` call, as indexed
maps of `stepAt`. -/
theorem updateCarAI_some_rosters (g : Geom) (dc : Curve) (dl : Line) (delta : ℚ)
    (perCarPaths : Option (List (Option PathPair)))
    (cars : List (Option Car)) (bodies : List (Option Body))
    (states : List (Option AIState)) :
    (updateCarAI g (some cars) (some bodies) (some states) (some dc) (some dl) delta
        perCarPaths).carObjects =
      some (cars.mapIdx (fun i c =>
        match stepAt g dc dl delta perCarPaths cars bodies states i with
        | some r => some r.1
        | none => c)) ∧
    (updateCarAI g (some cars) (some bodies) (some states) (some dc) (some dl) delta
        perCarPaths).carBodies =
      some (bodies.mapIdx (fun i b =>
        match stepAt g dc dl delta perCarPaths cars bodies states i with
        | some r => r.2.1
        | none => b)) ∧
    (updateCarAI g (some cars) (some bodies) (some states) (some dc) (some dl) delta
        perCarPaths).carAIStates =
      some (states.mapIdx (fun i s' =>
        match stepAt g dc dl delta perCarPaths cars bodies states i with
        | some r => some r.2.2
        | none => s')) :=
  ⟨rfl, rfl, rfl⟩

/-- The pose that the `state.done` branch of `updateCarAI` recomputes on
every call: position `getPoint(1)` through the line's world matrix,
orientation looking along the chord `getPoint(1) - getPoint(0.999)` carried
to world space — a function of the curve, the line and the geometry only
(derived abbreviation for the outputs of that branch). -/
def heldCar (g : Geom) (curve : Curve) (line : Line) : Car :=
  let last := curve.getPoint 1
  let lastPos := last.applyMatrix4 line.matrixWorld
  let prev := curve.getPoint (999 / 1000)
  let tangent := Vec3.normalize g (last.sub prev)
  let worldTangent := tangent.applyQuaternion line.worldQuat
  { position := lastPos, quaternion := g.lookAtQuat lastPos (lastPos.add worldTangent) }

/-- The body fields the `state.done` branch writes: the held pose with both
velocities zeroed. -/
def heldBody (g : Geom) (curve : Curve) (line : Line) : Body :=
  { position := (heldCar g curve line).position,
    quaternion := (heldCar g curve line).quaternion,
    velocity := Vec3.zero, angularVelocity := Vec3.zero }

/-- On a `done` state, `stepAgent` outputs the held pose, rewrites any
attached body to the held pose with zero velocities, and leaves the state
untouched — independently of the incoming car pose and body fields. -/
theorem stepAgent_done (g : Geom) (curve : Curve) (line : Line) (delta : ℚ)
    (car : Car) (body : Option Body) (s : AIState) (hdone : s.done = true) :
    stepAgent g curve line delta car body s =
      (heldCar g curve line, body.map (fun _ => heldBody g curve line), s) := by
  simp [stepAgent, hdone, heldCar, heldBody, lookAt]

/-- Overwriting with a constant is idempotent on an optional value. -/
theorem optionMap_const_idem {α : Type} (h : α) (b : Option α) :
    Option.map (fun _ => h) (Option.map (fun _ => h) b) = Option.map (fun _ => h) b := by
  cases b <;> rfl

/-- The three roster entries at index `i` after one `updateCarAI` call on a
`done` agent: the held car pose, the unchanged state, and the held body. -/
theorem updateCarAI_done_entries (g : Geom) (dc : Curve) (dl : Line) (delta : ℚ)
    (perCarPaths : Option (List (Option PathPair)))
    (cars : List (Option Car)) (bodies : List (Option Body))
    (states : List (Option AIState)) (i : ℕ) (car : Car) (s : AIState)
    (hcar : cars[i]? = some (some car)) (hstate : states[i]? = some (some s))
    (hdone : s.done = true) :
    ((updateCarAI g (some cars) (some bodies) (some states) (some dc) (some dl) delta
        perCarPaths).carObjects.getD [])[i]? =
      some (some (heldCar g (selPath perCarPaths i dc dl).1 (selPath perCarPaths i dc dl).2)) ∧
    ((updateCarAI g (some cars) (some bodies) (some states) (some dc) (some dl) delta
        perCarPaths).carAIStates.getD [])[i]? = some (some s) ∧
    ((updateCarAI g (some cars) (some bodies) (some states) (some dc) (some dl) delta
        perCarPaths).carBodies.getD [])[i]? =
      Option.map (Option.map (fun _ =>
        heldBody g (selPath perCarPaths i dc dl).1 (selPath perCarPaths i dc dl).2)) bodies[i]? := by
  have hstep := stepAt_of_present g dc dl delta perCarPaths cars bodies states i car s hcar hstate
  rw [stepAgent_done g (selPath perCarPaths i dc dl).1 (selPath perCarPaths i dc dl).2 delta car
    (bodies.getD i none) s hdone] at hstep
  obtain ⟨hc, hb, hs⟩ := updateCarAI_some_rosters g dc dl delta perCarPaths cars bodies states
  refine ⟨?_, ?_, ?_⟩
  · rw [hc, Option.getD_some, List.getElem?_mapIdx, hcar, Option.map_some', hstep]
  · rw [hs, Option.getD_some, List.getElem?_mapIdx, hstate, Option.map_some', hstep]
  · rw [hb, Option.getD_some, List.getElem?_mapIdx]
    cases hbent : bodies[i]? with
    | none => rfl
    | some b =>
      rw [Option.map_some', Option.map_some', hstep]
      have hgd : bodies.getD i none = b := by
        rw [List.getD_eq_getElem?_getD, hbent, Option.getD_some]
      rw [hgd]

/-- C2.  Agent progress update: for an active agent (`done = false`) with a
numeric speed, when its effective curve is open and
`progress + speed * delta ≥ 1` the call writes back `progress = 1` and
`done = true` (terminal); when the effective curve is closed it writes back
`progress = (progress + speed * delta) % 1` and leaves `done = false`
(never terminal, looping forever). -/
theorem updateCarAI_progress (g : Geom) (dc : Curve) (dl : Line) (delta : ℚ)
    (perCarPaths : Option (List (Option PathPair)))
    (cars : List (Option Car)) (bodies : List (Option Body))
    (states : List (Option AIState)) (i : ℕ) (car : Car) (s : AIState) (sp : ℚ)
    (hcar : cars[i]? = some (some car)) (hstate : states[i]? = some (some s))
    (hdone : s.done = false) (hspeed : s.speed = some sp) :
    ((selPath perCarPaths i dc dl).1.closed = false → 1 ≤ s.progress + sp * delta →
      ((updateCarAI g (some cars) (some bodies) (some states) (some dc) (some dl) delta
          perCarPaths).carAIStates.getD [])[i]? =
        some (some { progress := 1, speed := s.speed, done := true })) ∧
    ((selPath perCarPaths i dc dl).1.closed = true →
      ((updateCarAI g (some cars) (some bodies) (some states) (some dc) (some dl) delta
          perCarPaths).carAIStates.getD [])[i]? =
        some (some { progress := jsMod (s.progress + sp * delta) 1, speed := s.speed,
                     done := false })) := by
  have hstep := stepAt_of_present g dc dl delta perCarPaths cars bodies states i car s hcar hstate
  obtain ⟨hc, hb, hs⟩ := updateCarAI_some_rosters g dc dl delta perCarPaths cars bodies states
  constructor
  · intro hopen hover
    rw [hs, Option.getD_some, List.getElem?_mapIdx, hstate, Option.map_some', hstep]
    simp [stepAgent, hdone, hspeed, hopen, hover]
  · intro hclosed
    rw [hs, Option.getD_some, List.getElem?_mapIdx, hstate, Option.map_some', hstep]
    simp [stepAgent, hdone, hspeed, hclosed]

/-- C6.  Terminal agent stability: for an agent whose state is already
`done = true`, one `updateCarAI` call puts it at the held terminal pose
(position `getPoint(1)` of its effective curve, carried through the line's
world matrix), zeroes any attached body's linear and angular velocity, and
leaves its state unchanged; a further call with any `delta` reproduces the
identical car, state and body entries — repeated calls never change the
agent's position or orientation and zero the body's velocities every
time. -/
theorem updateCarAI_terminal_hold (g : Geom) (dc : Curve) (dl : Line) (delta delta2 : ℚ)
    (perCarPaths : Option (List (Option PathPair)))
    (cars : List (Option Car)) (bodies : List (Option Body))
    (states : List (Option AIState)) (i : ℕ) (car : Car) (s : AIState)
    (hcar : cars[i]? = some (some car)) (hstate : states[i]? = some (some s))
    (hdone : s.done = true)
    (cars1 : List (Option Car)) (bodies1 : List (Option Body))
    (states1 : List (Option AIState))
    (h1c : (updateCarAI g (some cars) (some bodies) (some states) (some dc) (some dl) delta
        perCarPaths).carObjects = some cars1)
    (h1b : (updateCarAI g (some cars) (some bodies) (some states) (some dc) (some dl) delta
        perCarPaths).carBodies = some bodies1)
    (h1s : (updateCarAI g (some cars) (some bodies) (some states) (some dc) (some dl) delta
        perCarPaths).carAIStates = some states1) :
    cars1[i]? =
      some (some (heldCar g (selPath perCarPaths i dc dl).1 (selPath perCarPaths i dc dl).2)) ∧
    (heldCar g (selPath perCarPaths i dc dl).1 (selPath perCarPaths i dc dl).2).position =
      ((selPath perCarPaths i dc dl).1.getPoint 1).applyMatrix4
        (selPath perCarPaths i dc dl).2.matrixWorld ∧
    states1[i]? = some (some s) ∧
    bodies1[i]? =
      Option.map (Option.map (fun _ =>
        heldBody g (selPath perCarPaths i dc dl).1 (selPath perCarPaths i dc dl).2)) bodies[i]? ∧
    (heldBody g (selPath perCarPaths i dc dl).1 (selPath perCarPaths i dc dl).2).velocity =
      Vec3.zero ∧
    (heldBody g (selPath perCarPaths i dc dl).1 (selPath perCarPaths i dc dl).2).angularVelocity =
      Vec3.zero ∧
    ((updateCarAI g (some cars1) (some bodies1) (some states1) (some dc) (some dl) delta2
        perCarPaths).carObjects.getD [])[i]? = cars1[i]? ∧
    ((updateCarAI g (some cars1) (some bodies1) (some states1) (some dc) (some dl) delta2
        perCarPaths).carAIStates.getD [])[i]? = states1[i]? ∧
    ((updateCarAI g (some cars1) (some bodies1) (some states1) (some dc) (some dl) delta2
        perCarPaths).carBodies.getD [])[i]? = bodies1[i]? := by
  have e1 := updateCarAI_done_entries g dc dl delta perCarPaths cars bodies states i car s
    hcar hstate hdone
  rw [h1c, h1s, h1b, Option.getD_some, Option.getD_some, Option.getD_some] at e1
  obtain ⟨e1c, e1s, e1b⟩ := e1
  have e2 := updateCarAI_done_entries g dc dl delta2 perCarPaths cars1 bodies1 states1 i
    (heldCar g (selPath perCarPaths i dc dl).1 (selPath perCarPaths i dc dl).2) s
    e1c e1s hdone
  obtain ⟨e2c, e2s, e2b⟩ := e2
  refine ⟨e1c, rfl, e1s, e1b, rfl, rfl, ?_, ?_, ?_⟩
  · rw [e2c, e1c]
  · rw [e2s, e1s]
  · rw [e2b, e1b]
    cases bodies[i]? with
    | none => rfl
    | some b =>
      rw [Option.map_some', Option.map_some', optionMap_const_idem]

/-- A concrete open test curve used by witness statements. -/
def testOpenCurve : Curve :=
  ⟨[⟨0, 0, 0⟩, ⟨1, 0, 0⟩, ⟨1, 1, 0⟩], false⟩

/-- A concrete hosting line (identity world transform) used by witness
statements. -/
def testLine : Line :=
  { matrixWorld := Mat4.identity, worldQuat := ⟨0, 0, 0, 1⟩ }

/-- A concrete car used by witness statements. -/
def testCar : Car :=
  { position := ⟨0, 0, 0⟩, quaternion := ⟨0, 0, 0, 1⟩ }

/-- A concrete body used by witness statements. -/
def testBody : Body :=
  { position := ⟨0, 0, 0⟩, quaternion := ⟨0, 0, 0, 1⟩,
    velocity := ⟨1, 1, 1⟩, angularVelocity := ⟨1, 0, 0⟩ }

/-- A concrete active (not yet done) agent state used by witness statements. -/
def movingState : AIState :=
  { progress := 4 / 5, speed := some (1 / 2), done := false }

/-- A concrete terminal agent state used by witness statements. -/
def doneState : AIState :=
  { progress := 1, speed := some (1 / 2), done := true }

/-- Witness for C2: the same active agent clamps to `progress = 1, done`
when driven on an open curve past the end, and wraps to
`(4/5 + 1/2) % 1 = 3/10` with `done = false` on a closed curve. -/
theorem updateCarAI_progress_witness :
    ((updateCarAI testGeom (some [some testCar]) (some [none]) (some [some movingState])
        (some testOpenCurve) (some testLine) 1 none).carAIStates.getD [])[0]? =
      some (some { progress := 1, speed := some (1 / 2), done := true }) ∧
    ((updateCarAI testGeom (some [some testCar]) (some [none]) (some [some movingState])
        (some squareCurve) (some testLine) 1 none).carAIStates.getD [])[0]? =
      some (some { progress := 3 / 10, speed := some (1 / 2), done := false }) := by
  constructor
  · exact (updateCarAI_progress testGeom testOpenCurve testLine 1 none [some testCar] [none]
      [some movingState] 0 testCar movingState (1 / 2) rfl rfl rfl rfl).1 rfl
      (by with_unfolding_all decide)
  · have h := (updateCarAI_progress testGeom squareCurve testLine 1 none [some testCar] [none]
      [some movingState] 0 testCar movingState (1 / 2) rfl rfl rfl rfl).2 rfl
    rw [h]
    have hm : jsMod (movingState.progress + 1 / 2 * 1) 1 = 3 / 10 := by
      with_unfolding_all decide
    rw [hm]
    rfl

/-- Witness for C6: a done agent on the open test curve is held at the
terminal pose with zeroed body velocities, and a second call (with a
different `delta`) reproduces exactly the same entries. -/
theorem updateCarAI_terminal_hold_witness :
    [some (heldCar testGeom testOpenCurve testLine)][0]? =
      some (some (heldCar testGeom testOpenCurve testLine)) ∧
    (heldCar testGeom testOpenCurve testLine).position =
      (testOpenCurve.getPoint 1).applyMatrix4 testLine.matrixWorld ∧
    [some doneState][0]? = some (some doneState) ∧
    [some (heldBody testGeom testOpenCurve testLine)][0]? =
      Option.map (Option.map (fun _ => heldBody testGeom testOpenCurve testLine))
        [some testBody][0]? ∧
    (heldBody testGeom testOpenCurve testLine).velocity = Vec3.zero ∧
    (heldBody testGeom testOpenCurve testLine).angularVelocity = Vec3.zero ∧
    ((updateCarAI testGeom (some [some (heldCar testGeom testOpenCurve testLine)])
        (some [some (heldBody testGeom testOpenCurve testLine)]) (some [some doneState])
        (some testOpenCurve) (some testLine) 2 none).carObjects.getD [])[0]? =
      [some (heldCar testGeom testOpenCurve testLine)][0]? ∧
    ((updateCarAI testGeom (some [some (heldCar testGeom testOpenCurve testLine)])
        (some [some (heldBody testGeom testOpenCurve testLine)]) (some [some doneState])
        (some testOpenCurve) (some testLine) 2 none).carAIStates.getD [])[0]? =
      [some doneState][0]? ∧
    ((updateCarAI testGeom (some [some (heldCar testGeom testOpenCurve testLine)])
        (some [some (heldBody testGeom testOpenCurve testLine)]) (some [some doneState])
        (some testOpenCurve) (some testLine) 2 none).carBodies.getD [])[0]? =
      [some (heldBody testGeom testOpenCurve testLine)][0]? :=
  updateCarAI_terminal_hold testGeom testOpenCurve testLine 1 2 none
    [some testCar] [some testBody] [some doneState] 0 testCar doneState rfl rfl rfl
    [some (heldCar testGeom testOpenCurve testLine)]
    [some (heldBody testGeom testOpenCurve testLine)]
    [some doneState] rfl rfl rfl
